import Mathlib

set_option maxRecDepth 10000

/-!
Verification of the JWT authentication core of the mundonegocio backend
(`src/api/routes/auth.py`, configuration from `src/config/settings.py`),
shallowly embedded in Lean 4.

Modelling conventions:
* Time is a `Nat` of Unix seconds; `datetime.utcnow()` becomes an explicit
  `now` parameter, `timedelta(minutes=m)` is `m * 60` seconds and
  `timedelta(days=d)` is `d * 86400` seconds.
* A JWT is an opaque byte string; we model it as `List Nat` of symbols.
  The `python-jose` codec (`jwt.encode` / `jwt.decode`) is modelled as a
  payload serialization plus a keyed signature tag; HMAC-SHA256 is modelled
  symbolically as a tag that is injective in the payload (the standard
  symbolic model of an unforgeable MAC).  `jwt.decode` verifies the
  signature and the embedded `exp` claim, exactly as jose does.
* `HTTPException` is modelled by its status code and detail string (the
  `WWW-Authenticate` header carried by one raise site plays no role in any
  property considered here).
* bcrypt via `passlib` is modelled as a deterministic injective one-way
  transform: `verify(p, h)` holds exactly when `h` is the hash of `p`.
-/

namespace MN

/-- A token / byte string: a list of numeric symbols. -/
abbrev Bytes := List Nat

/-- The characters of a string, as their numeric codepoints. -/
def strBytes (s : String) : Bytes := s.data.map Char.toNat

/-- Rebuild a string from codepoints (invalid codepoints become `'\0'`). -/
def bytesStr (bs : Bytes) : String := String.mk (bs.map Char.ofNat)

theorem toNat_ofNat_of_valid {b : Nat} (h : b.isValidChar) :
    (Char.ofNat b).toNat = b := by
  rw [Char.ofNat, dif_pos h]; rfl

theorem isValidChar_toNat (c : Char) : Nat.isValidChar c.toNat := c.valid

theorem map_ofNat_toNat (l : List Char) :
    l.map (fun c => Char.ofNat c.toNat) = l := by
  induction l with
  | nil => rfl
  | cons c l ih => simp [ih]

theorem bytesStr_strBytes (s : String) : bytesStr (strBytes s) = s := by
  unfold bytesStr strBytes
  rw [List.map_map]
  show String.mk (s.data.map (fun c => Char.ofNat c.toNat)) = s
  rw [map_ofNat_toNat]

theorem strBytes_bytesStr {bs : Bytes} (h : ∀ b ∈ bs, Nat.isValidChar b) :
    strBytes (bytesStr bs) = bs := by
  unfold bytesStr strBytes
  show (bs.map Char.ofNat).map Char.toNat = bs
  rw [List.map_map]
  induction bs with
  | nil => rfl
  | cons b bs ih =>
    simp only [List.map_cons, List.cons.injEq]
    refine ⟨?_, ih fun x hx => h x (List.mem_cons_of_mem _ hx)⟩
    exact toNat_ofNat_of_valid (h b (List.mem_cons_self _ _))

theorem string_length_data (s : String) : s.length = s.data.length := by
  cases s; rfl

theorem strBytes_length (s : String) : (strBytes s).length = s.length := by
  rw [strBytes, List.length_map, string_length_data]

theorem bytesStr_length (bs : Bytes) : (bytesStr bs).length = bs.length := by
  rw [bytesStr, string_length_data]
  exact List.length_map _ _

/-- One serialized payload field: a number, a string, or an optional string
(modelling the JSON values that appear in the token payloads of `auth.py`). -/
inductive Field where
  | nat (n : Nat)
  | str (s : String)
  | optStr (o : Option String)
deriving DecidableEq

/-- Length-prefixed string serialization. -/
def serializeStr (s : String) : Bytes := s.length :: strBytes s

/-- Parse a length-prefixed string off the front of a byte string. -/
def parseStr : Bytes → Option (String × Bytes)
  | [] => none
  | n :: r =>
    if _h : n ≤ r.length ∧ ∀ b ∈ r.take n, Nat.isValidChar b then
      some (bytesStr (r.take n), r.drop n)
    else none

theorem parseStr_serialize (s : String) (r : Bytes) :
    parseStr (serializeStr s ++ r) = some (s, r) := by
  unfold serializeStr parseStr
  simp only [List.cons_append]
  rw [dif_pos, List.take_left' (strBytes_length s), bytesStr_strBytes,
    List.drop_left' (strBytes_length s)]
  constructor
  · rw [List.length_append, strBytes_length]
    exact Nat.le_add_right _ _
  · intro b hb
    rw [List.take_left' (strBytes_length s)] at hb
    obtain ⟨c, _, rfl⟩ := List.mem_map.mp hb
    exact isValidChar_toNat c

theorem parseStr_sound {t : Bytes} {s : String} {r : Bytes}
    (h : parseStr t = some (s, r)) : t = serializeStr s ++ r := by
  match t with
  | [] => simp [parseStr] at h
  | n :: rest =>
    rw [parseStr] at h
    split at h
    · rename_i hg
      obtain ⟨hle, hval⟩ := hg
      have hpair := Option.some.inj h
      have hs : bytesStr (rest.take n) = s := congrArg Prod.fst hpair
      have hr : rest.drop n = r := congrArg Prod.snd hpair
      subst hs
      subst hr
      have hlen : (rest.take n).length = n := by
        rw [List.length_take]
        omega
      unfold serializeStr
      rw [bytesStr_length, hlen,
        strBytes_bytesStr (fun b hb => hval b hb)]
      simp [List.take_append_drop]
    · exact absurd h (by simp)

/-- Byte serialization of one field: a numeric tag followed by the payload. -/
def serializeField : Field → Bytes
  | .nat n => [0, n]
  | .str s => 1 :: serializeStr s
  | .optStr none => [2]
  | .optStr (some s) => 3 :: serializeStr s

/-- Parse one tagged field off the front of a byte string. -/
def parseField : Bytes → Option (Field × Bytes)
  | [] => none
  | tag :: rest =>
    if tag = 0 then
      match rest with
      | n :: r => some (Field.nat n, r)
      | [] => none
    else if tag = 1 then
      (parseStr rest).map (fun p => (Field.str p.1, p.2))
    else if tag = 2 then
      some (Field.optStr none, rest)
    else if tag = 3 then
      (parseStr rest).map (fun p => (Field.optStr (some p.1), p.2))
    else none

theorem parseField_serialize (f : Field) (r : Bytes) :
    parseField (serializeField f ++ r) = some (f, r) := by
  match f with
  | .nat n => rfl
  | .str s =>
    show parseField (1 :: (serializeStr s ++ r)) = _
    simp only [parseField]
    simp [parseStr_serialize]
  | .optStr none => rfl
  | .optStr (some s) =>
    show parseField (3 :: (serializeStr s ++ r)) = _
    simp only [parseField]
    simp [parseStr_serialize]

theorem parseField_sound {t : Bytes} {f : Field} {r : Bytes}
    (h : parseField t = some (f, r)) : t = serializeField f ++ r := by
  match t with
  | [] => simp [parseField] at h
  | tag :: rest =>
    simp only [parseField] at h
    split at h
    · rename_i h0
      subst h0
      match rest with
      | [] => simp at h
      | n :: rr =>
        obtain ⟨rfl, rfl⟩ : Field.nat n = f ∧ rr = r := by
          have := Option.some.inj h
          exact ⟨congrArg Prod.fst this, congrArg Prod.snd this⟩
        rfl
    · split at h
      · rename_i _ h1
        subst h1
        obtain ⟨⟨s, rr⟩, hp, hf⟩ := Option.map_eq_some'.mp h
        obtain ⟨rfl, rfl⟩ : Field.str s = f ∧ rr = r :=
          ⟨congrArg Prod.fst hf, congrArg Prod.snd hf⟩
        rw [show serializeField (Field.str s) = 1 :: serializeStr s from rfl,
          List.cons_append, parseStr_sound hp]
      · split at h
        · rename_i _ _ h2
          subst h2
          obtain ⟨rfl, rfl⟩ : Field.optStr none = f ∧ rest = r := by
            have := Option.some.inj h
            exact ⟨congrArg Prod.fst this, congrArg Prod.snd this⟩
          rfl
        · split at h
          · rename_i _ _ _ h3
            subst h3
            obtain ⟨⟨s, rr⟩, hp, hf⟩ := Option.map_eq_some'.mp h
            obtain ⟨rfl, rfl⟩ : Field.optStr (some s) = f ∧ rr = r :=
              ⟨congrArg Prod.fst hf, congrArg Prod.snd hf⟩
            rw [show serializeField (Field.optStr (some s)) =
              3 :: serializeStr s from rfl, List.cons_append, parseStr_sound hp]
          · exact absurd h (by simp)

/-- Serialize a list of fields by concatenation. -/
def serializeFields : List Field → Bytes
  | [] => []
  | f :: fs => serializeField f ++ serializeFields fs

/-- Parse exactly `k` fields off the front of a byte string. -/
def parseFieldList : Nat → Bytes → Option (List Field × Bytes)
  | 0, t => some ([], t)
  | k + 1, t =>
    (parseField t).bind fun fr =>
      (parseFieldList k fr.2).map fun gr => (fr.1 :: gr.1, gr.2)

theorem parseFieldList_serialize (fs : List Field) (r : Bytes) :
    parseFieldList fs.length (serializeFields fs ++ r) = some (fs, r) := by
  induction fs generalizing r with
  | nil => rfl
  | cons f fs ih =>
    show parseFieldList (fs.length + 1) ((serializeField f ++ serializeFields fs) ++ r) = _
    rw [List.append_assoc, parseFieldList, parseField_serialize]
    simp [ih]

theorem parseFieldList_sound {k : Nat} {t : Bytes} {fs : List Field} {r : Bytes}
    (h : parseFieldList k t = some (fs, r)) :
    t = serializeFields fs ++ r ∧ fs.length = k := by
  induction k generalizing t fs r with
  | zero =>
    have hpair := Option.some.inj h
    have hfs : ([] : List Field) = fs := congrArg Prod.fst hpair
    have hr : t = r := congrArg Prod.snd hpair
    subst hfs
    exact ⟨hr, rfl⟩
  | succ k ih =>
    rw [parseFieldList] at h
    match hf : parseField t with
    | none => rw [hf] at h; exact absurd h (by simp)
    | some (f, r1) =>
      rw [hf] at h
      simp only [Option.some_bind] at h
      match hl : parseFieldList k r1 with
      | none => rw [hl] at h; exact absurd h (by simp)
      | some (fs1, r2) =>
        rw [hl] at h
        simp only [Option.map_some'] at h
        have hpair := Option.some.inj h
        have hfs : f :: fs1 = fs := congrArg Prod.fst hpair
        have hr : r2 = r := congrArg Prod.snd hpair
        subst hfs
        subst hr
        obtain ⟨ht1, hlen⟩ := ih hl
        refine ⟨?_, by simpa using hlen⟩
        rw [parseField_sound hf, ht1]
        show _ = (serializeField f ++ serializeFields fs1) ++ r2
        rw [List.append_assoc]

/-- The decoded payload of a token, as built and read by `auth.py`: the five
identity claims that `login` puts into `token_data` (`sub`, `user_id`,
`name`, `role`, `country`), plus the bookkeeping claims that
`create_access_token` / `create_refresh_token` add (`exp`, `iat`, `type`,
and for refresh tokens `jti`).  Claims the code never sets are `none`. -/
structure Claims where
  sub : Option String
  user_id : Option String
  name : Option String
  role : Option String
  country : Option String
  exp : Nat
  iat : Nat
  type : String
  jti : Option String
deriving DecidableEq

/-- The field list of a claim set, in fixed order. -/
def claimsToFields (c : Claims) : List Field :=
  [Field.optStr c.sub, Field.optStr c.user_id, Field.optStr c.name,
   Field.optStr c.role, Field.optStr c.country, Field.nat c.exp,
   Field.nat c.iat, Field.str c.type, Field.optStr c.jti]

/-- Rebuild a claim set from exactly nine fields of the right kinds. -/
def fieldsToClaims : List Field → Option Claims
  | [Field.optStr a, Field.optStr b, Field.optStr c, Field.optStr d,
     Field.optStr e, Field.nat x, Field.nat y, Field.str ty, Field.optStr j] =>
    some ⟨a, b, c, d, e, x, y, ty, j⟩
  | _ => none

theorem fieldsToClaims_claimsToFields (c : Claims) :
    fieldsToClaims (claimsToFields c) = some c := rfl

theorem fieldsToClaims_sound {fs : List Field} {c : Claims}
    (h : fieldsToClaims fs = some c) : fs = claimsToFields c := by
  unfold fieldsToClaims at h
  split at h
  · cases Option.some.inj h
    rfl
  · exact absurd h (by simp)

/-- Byte serialization of a claim set. -/
def serializeClaims (c : Claims) : Bytes := serializeFields (claimsToFields c)

/-- Symbolic model of the HMAC-SHA256 signature over the serialized payload:
an unforgeable keyed tag, injective in the payload for a fixed key. -/
def hmacSig (key msg : Bytes) : Bytes := key ++ msg

/-- `jose.jwt.encode`: serialized payload (length-prefixed) followed by the
signature over it. -/
def jwtEncode (key : Bytes) (c : Claims) : Bytes :=
  (serializeClaims c).length :: (serializeClaims c ++ hmacSig key (serializeClaims c))

/-- The signature/shape part of `jose.jwt.decode`: recover the payload,
check the signature, and require the payload to be a canonical claim-set
serialization.  (The `exp` check sits in `decode_token` below.) -/
def jwtDecodeRaw (key : Bytes) (t : Bytes) : Option Claims :=
  match t with
  | [] => none
  | n :: rest =>
    if n ≤ rest.length then
      if rest.drop n = hmacSig key (rest.take n) then
        match parseFieldList 9 (rest.take n) with
        | some (fs, []) => fieldsToClaims fs
        | _ => none
      else none
    else none

theorem claimsToFields_length (c : Claims) : (claimsToFields c).length = 9 := rfl

theorem jwtDecodeRaw_encode (key : Bytes) (c : Claims) :
    jwtDecodeRaw key (jwtEncode key c) = some c := by
  unfold jwtEncode
  simp only [jwtDecodeRaw]
  have hlen : (serializeClaims c).length ≤
      (serializeClaims c ++ hmacSig key (serializeClaims c)).length := by
    rw [List.length_append]
    exact Nat.le_add_right _ _
  rw [if_pos hlen, List.take_left, List.drop_left, if_pos rfl]
  have h9 := parseFieldList_serialize (claimsToFields c) []
  rw [List.append_nil, claimsToFields_length] at h9
  rw [show serializeClaims c = serializeFields (claimsToFields c) from rfl, h9]
  exact fieldsToClaims_claimsToFields c

theorem jwtDecodeRaw_sound {key t : Bytes} {c : Claims}
    (h : jwtDecodeRaw key t = some c) : t = jwtEncode key c := by
  match t with
  | [] => exact absurd h (by simp [jwtDecodeRaw])
  | n :: rest =>
    simp only [jwtDecodeRaw] at h
    split at h
    · rename_i hle
      split at h
      · rename_i hsig
        split at h
        · rename_i fs hfl
          obtain ⟨htake, hlen9⟩ := parseFieldList_sound hfl
          rw [List.append_nil] at htake
          have hfs := fieldsToClaims_sound h
          subst hfs
          have hser : rest.take n = serializeClaims c := htake
          have hn : n = (serializeClaims c).length := by
            have := List.length_take n rest
            rw [hser] at this
            omega
          unfold jwtEncode
          rw [← hn, ← hser, ← hsig]
          rw [List.take_append_drop]
        · exact absurd h (by simp)
      · exact absurd h (by simp)
    · exact absurd h (by simp)

theorem serializeClaims_length_pos (c : Claims) : 0 < (serializeClaims c).length := by
  show 0 < (serializeFields (claimsToFields c)).length
  rw [claimsToFields]
  show 0 < (serializeField (Field.optStr c.sub) ++ _).length
  rw [List.length_append]
  cases c.sub <;> simp [serializeField, serializeStr]

theorem exists_getElem?_ne {l l' : Bytes} (hlen : l.length = l'.length)
    (h : l ≠ l') : ∃ m, m < l.length ∧ l[m]? ≠ l'[m]? := by
  by_contra hc
  push_neg at hc
  apply h
  apply List.ext_getElem?
  intro n
  by_cases hn : n < l.length
  · exact hc n hn
  · rw [List.getElem?_eq_none (by omega), List.getElem?_eq_none (by omega)]

/-- Core of the tamper-rejection argument: the token layout `p ++ key ++ p`
binds two copies of the payload, so no single-position change can turn the
token of payload `p` into the token of a payload `p'`. -/
theorem set_append_sig_ne {p p' key : Bytes} {j b : Nat}
    (hp0 : 0 < p.length) (hpp : p'.length = p.length)
    (hj : j < (p ++ (key ++ p)).length)
    (hbj : b ≠ (p ++ (key ++ p))[j])
    (htail : (p ++ (key ++ p)).set j b = p' ++ (key ++ p')) : False := by
  by_cases hpe : p = p'
  · subst hpe
    have hset : ((p ++ (key ++ p)).set j b)[j]? = some b :=
      List.getElem?_set_self hj
    rw [htail, List.getElem?_eq_getElem hj] at hset
    exact hbj (Option.some.inj hset).symm
  · obtain ⟨m, hm, hmne⟩ := exists_getElem?_ne (hpp.symm) hpe
    have hmp' : m < p'.length := by omega
    have e1 := congrArg (fun l => l[m]?) htail
    simp only at e1
    rw [List.getElem?_append_left hmp'] at e1
    have hmj : m = j := by
      by_contra hmj
      rw [List.getElem?_set_ne (fun hh => hmj hh.symm),
        List.getElem?_append_left hm] at e1
      exact hmne e1
    subst hmj
    have hM : p.length + key.length + m < (p ++ (key ++ p)).length := by
      simp only [List.length_append]
      omega
    have e2 := congrArg (fun l => l[p.length + key.length + m]?) htail
    simp only at e2
    have hMne : m ≠ p.length + key.length + m := by omega
    rw [List.getElem?_set_ne hMne,
      List.getElem?_append_right (show p.length ≤ p.length + key.length + m by omega),
      List.getElem?_append_right (show p'.length ≤ p.length + key.length + m by omega),
      show p.length + key.length + m - p.length = key.length + m by omega,
      show p.length + key.length + m - p'.length = key.length + m by omega,
      List.getElem?_append_right (show key.length ≤ key.length + m by omega),
      List.getElem?_append_right (show key.length ≤ key.length + m by omega),
      show key.length + m - key.length = m by omega] at e2
    exact hmne e2

/-- Altering any single symbol of an encoded token makes the raw decoder
reject it outright. -/
theorem jwtDecodeRaw_set (key : Bytes) (c : Claims) (i b : Nat)
    (hi : i < (jwtEncode key c).length) (hb : b ≠ (jwtEncode key c)[i]) :
    jwtDecodeRaw key ((jwtEncode key c).set i b) = none := by
  cases hd : jwtDecodeRaw key ((jwtEncode key c).set i b) with
  | none => rfl
  | some c2 =>
    exfalso
    have hshape := jwtDecodeRaw_sound hd
    have hlenEq : (jwtEncode key c2).length = (jwtEncode key c).length := by
      rw [← hshape, List.length_set]
    have hpp : (serializeClaims c2).length = (serializeClaims c).length := by
      simp only [jwtEncode, hmacSig, List.length_cons, List.length_append] at hlenEq
      omega
    cases i with
    | zero =>
      have h0 : (jwtEncode key c).set 0 b
          = b :: (serializeClaims c ++ hmacSig key (serializeClaims c)) := by
        rw [jwtEncode]
        rfl
      rw [h0, jwtEncode] at hshape
      injection hshape with hhead _
      have ht0 : (jwtEncode key c)[0] = (serializeClaims c).length := by
        have hq : (jwtEncode key c)[0]? = some (serializeClaims c).length := by
          rw [jwtEncode]
          exact List.getElem?_cons_zero
        rw [List.getElem?_eq_getElem hi] at hq
        exact Option.some.inj hq
      exact hb (by rw [ht0, ← hpp, ← hhead])
    | succ j =>
      have hset : (jwtEncode key c).set (j + 1) b
          = (serializeClaims c).length ::
            ((serializeClaims c ++ hmacSig key (serializeClaims c)).set j b) := by
        rw [jwtEncode]
        rfl
      rw [hset, jwtEncode] at hshape
      injection hshape with _ htail
      have hj : j < (serializeClaims c ++ hmacSig key (serializeClaims c)).length := by
        have := hi
        rw [jwtEncode, List.length_cons] at this
        omega
      have hbj : b ≠ (serializeClaims c ++ hmacSig key (serializeClaims c))[j] := by
        intro hcontra
        apply hb
        have hq : (jwtEncode key c)[j + 1]? =
            (serializeClaims c ++ hmacSig key (serializeClaims c))[j]? := by
          rw [jwtEncode]
          exact List.getElem?_cons_succ
        rw [List.getElem?_eq_getElem hi, List.getElem?_eq_getElem hj] at hq
        rw [Option.some.inj hq]
        exact hcontra
      exact set_append_sig_ne (serializeClaims_length_pos c) hpp hj hbj htail

/-- Configuration from `src/config/settings.py` (class `Settings`).  That
file names the JWT fields `jwt_secret_key` / `jwt_algorithm` while `auth.py`
reads `settings.secret_key` / `settings.algorithm`; the fields are modelled
once, under the names `auth.py` uses, with the configured defaults. -/
structure Settings where
  secret_key : String
  algorithm : String
  access_token_expire_minutes : Nat
  refresh_token_expire_days : Nat

/-- The process-wide settings singleton (`get_settings()`), with defaults. -/
def settings : Settings :=
  { secret_key := "change-this-to-a-secure-secret-key-min-32-chars"
    algorithm := "HS256"
    access_token_expire_minutes := 30
    refresh_token_expire_days := 7 }

/-- The signing key bytes used by every `jwt.encode` / `jwt.decode` call. -/
def appKey : Bytes := strBytes settings.secret_key

/-- `fastapi.HTTPException`, by status code and detail. -/
structure HTTPException where
  status_code : Nat
  detail : String
deriving DecidableEq

/-- The single error `decode_token` raises for every `JWTError` — bad
signature, malformed token, or expired claims alike. -/
def invalidTokenError : HTTPException := ⟨401, "Token inválido o expirado"⟩

/-- Raised when a token's `type` claim is not the expected purpose. -/
def tokenTypeError : HTTPException := ⟨401, "Token type inválido"⟩

/-- Raised by `get_current_user` when the `sub` claim is missing. -/
def missingSubError : HTTPException := ⟨401, "Token inválido"⟩

/-- The one error `login` raises for unknown email and wrong password alike. -/
def loginFailedError : HTTPException := ⟨401, "Email o contraseña incorrectos"⟩

/-- Raised for an inactive account. -/
def inactiveError : HTTPException := ⟨400, "Usuario inactivo"⟩

/-- Raised by the `require_role` checker. -/
def forbiddenError : HTTPException := ⟨403, "No tienes permisos para esta operación"⟩

/-- An uncaught exception inside a handler surfaces through `main.py`'s
`general_exception_handler` as a 500 response. -/
def internalError : HTTPException := ⟨500, "Error interno del servidor"⟩

/-- The identity claims `login` places in `token_data` before the codec adds
the bookkeeping claims; absent dict keys are `none`. -/
structure TokenData where
  sub : Option String := none
  user_id : Option String := none
  name : Option String := none
  role : Option String := none
  country : Option String := none
deriving DecidableEq

/-- `create_access_token`: copy the data and add `exp` (now + delta, default
`access_token_expire_minutes`), `iat`, and `type = "access"`. -/
def create_access_token (now : Nat) (data : TokenData)
    (expires_delta : Option Nat := none) : Bytes :=
  let expire :=
    match expires_delta with
    | some d => now + d
    | none => now + settings.access_token_expire_minutes * 60
  jwtEncode appKey
    { sub := data.sub, user_id := data.user_id, name := data.name,
      role := data.role, country := data.country,
      exp := expire, iat := now, type := "access", jti := none }

/-- `create_refresh_token`: copy the data and add `exp = now + 30 days`
(hardcoded `timedelta(days=30)`), `iat`, `type = "refresh"`, and a unique
`jti` (`secrets.token_urlsafe(32)`, modelled as the `jti` parameter). -/
def create_refresh_token (now : Nat) (jti : String) (data : TokenData) : Bytes :=
  jwtEncode appKey
    { sub := data.sub, user_id := data.user_id, name := data.name,
      role := data.role, country := data.country,
      exp := now + 30 * 86400, iat := now, type := "refresh", jti := some jti }

/-- Key-generic decode: signature/shape check plus the embedded-expiry check
that `jose.jwt.decode` performs, every failure collapsed to the same
`invalidTokenError` by the `except JWTError` clause. -/
def jwtDecode (key : Bytes) (now : Nat) (token : Bytes) :
    Except HTTPException Claims :=
  match jwtDecodeRaw key token with
  | none => Except.error invalidTokenError
  | some payload =>
    if payload.exp < now then Except.error invalidTokenError
    else Except.ok payload

/-- `decode_token`: `jwt.decode` with the process-wide key. -/
def decode_token (now : Nat) (token : Bytes) : Except HTTPException Claims :=
  jwtDecode appKey now token

/-- Modelled from the spec: the role enumeration that `auth.py` references
as `UserRole` but that is defined nowhere under `src/`.  The spec's
enumerated capability levels are `standard` and `admin`; the code's string
values are `"user"` and `"admin"`, and `UserRole.ADMIN` is `admin`. -/
inductive UserRole where
  | admin
  | user
deriving DecidableEq

/-- Modelled from the spec: the `UserRole(...)` enum constructor.  A string
outside the enumerated set raises `ValueError` in Python, modelled `none`. -/
def UserRole.fromString : String → Option UserRole
  | "admin" => some UserRole.admin
  | "user" => some UserRole.user
  | _ => none

/-- The `User` model as `get_current_user` constructs it and `require_role`
reads it.  The inline pydantic model in `auth.py` declares only `id`,
`email`, `full_name`, `is_active`; the `role` and `country` fields the code
constructs it with are modelled from the spec's Principal (role and
region/locale attributes).  `id` stays the string stored in the payload. -/
structure User where
  id : String
  email : String
  full_name : String
  role : UserRole
  country : String
  is_active : Bool
deriving DecidableEq

/-- `get_current_user`: decode, require `type = "access"`, require `sub`,
then rebuild the user from the claims.  A payload lacking `user_id`, `name`
or `country`, or carrying a role outside the enumeration, makes the
`User(...)`/`UserRole(...)` construction raise, surfacing as a 500. -/
def get_current_user (now : Nat) (token : Bytes) : Except HTTPException User :=
  match decode_token now token with
  | Except.error e => Except.error e
  | Except.ok payload =>
    if payload.type ≠ "access" then Except.error tokenTypeError
    else
      match payload.sub with
      | none => Except.error missingSubError
      | some email =>
        match payload.user_id, payload.name,
            UserRole.fromString (payload.role.getD "user"), payload.country with
        | some uid, some nm, some r, some co =>
          Except.ok { id := uid, email := email, full_name := nm,
                      role := r, country := co, is_active := true }
        | _, _, _, _ => Except.error internalError

/-- `get_current_active_user`: reject inactive users with a 400. -/
def get_current_active_user (now : Nat) (token : Bytes) :
    Except HTTPException User :=
  match get_current_user now token with
  | Except.error e => Except.error e
  | Except.ok current_user =>
    if current_user.is_active = false then Except.error inactiveError
    else Except.ok current_user

/-- The checker returned by `require_role`: allow unless the role differs
from the required one and is not admin. -/
def require_role (required_role : UserRole) (current_user : User) :
    Except HTTPException User :=
  if current_user.role ≠ required_role ∧ current_user.role ≠ UserRole.admin then
    Except.error forbiddenError
  else Except.ok current_user

/-- A record of the hardcoded `users_db` dict in `login`. -/
structure StoredUser where
  id : String
  email : String
  hashed_password : String
  full_name : String
  role : String
  country : String
  is_active : Bool
deriving DecidableEq

/-- `get_password_hash`: bcrypt via passlib, modelled as a deterministic
injective one-way transform (see the header comment). -/
def get_password_hash (password : String) : String := "bcrypt$" ++ password

/-- `verify_password`: check a plaintext secret against a stored hash. -/
def verify_password (plain_password hashed_password : String) : Bool :=
  decide (hashed_password = get_password_hash plain_password)

/-- The credential store: the two-user dict hardcoded inside `login`. -/
def users_db (email : String) : Option StoredUser :=
  if email = "admin@mundonegocio.com" then
    some { id := "1", email := "admin@mundonegocio.com",
           hashed_password := get_password_hash "admin123",
           full_name := "Administrador Sistema", role := "admin",
           country := "peru", is_active := true }
  else if email = "vendedor@mundonegocio.com" then
    some { id := "2", email := "vendedor@mundonegocio.com",
           hashed_password := get_password_hash "vendedor123",
           full_name := "Vendedor Demo", role := "user",
           country := "peru", is_active := true }
  else none

structure LoginRequest where
  email : String
  password : String
deriving DecidableEq

/-- The `TokenResponse` pydantic model: `access_token`, `refresh_token`,
`token_type`.  (The extra `expires_in` / `user` keyword arguments `login`
passes are not declared fields and are discarded by the model.) -/
structure TokenResponse where
  access_token : Bytes
  refresh_token : Bytes
  token_type : String
deriving DecidableEq

structure RefreshTokenRequest where
  refresh_token : Bytes
deriving DecidableEq

/-- The `login` endpoint.  The source's single
`if not user_dict or not verify_password(...)` branch is split into the
match and the first `if`; both arms raise the same `loginFailedError`. -/
def login (now : Nat) (jti : String) (login_data : LoginRequest) :
    Except HTTPException TokenResponse :=
  match users_db login_data.email with
  | none => Except.error loginFailedError
  | some user_dict =>
    if verify_password login_data.password user_dict.hashed_password = false then
      Except.error loginFailedError
    else if user_dict.is_active = false then
      Except.error inactiveError
    else
      let token_data : TokenData :=
        { sub := some user_dict.email, user_id := some user_dict.id,
          name := some user_dict.full_name, role := some user_dict.role,
          country := some user_dict.country }
      Except.ok
        { access_token := create_access_token now token_data,
          refresh_token := create_refresh_token now jti { sub := some user_dict.email },
          token_type := "bearer" }

/-- The structlog events `login` emits on each path, as (event, email)
pairs: `login_failed` on the combined unknown-email / wrong-password branch,
nothing on the inactive branch, `login_success` on success (whose extra
`user_id` keyword is determined by the email and omitted here). -/
def login_log (login_data : LoginRequest) : List (String × String) :=
  match users_db login_data.email with
  | none => [("login_failed", login_data.email)]
  | some user_dict =>
    if verify_password login_data.password user_dict.hashed_password = false then
      [("login_failed", login_data.email)]
    else if user_dict.is_active = false then []
    else [("login_success", user_dict.email)]

/-- The `refresh` endpoint (`refresh_token` in the source): decode, require
`type = "refresh"`, then mint a new access token whose data is only the
`sub` claim, and return it with the same refresh token.  No revocation
check and no re-fetch of the user happens (both are TODO comments). -/
def refresh_token (now : Nat) (refresh_data : RefreshTokenRequest) :
    Except HTTPException TokenResponse :=
  match decode_token now refresh_data.refresh_token with
  | Except.error e => Except.error e
  | Except.ok payload =>
    if payload.type ≠ "refresh" then Except.error tokenTypeError
    else
      let token_data : TokenData := { sub := payload.sub }
      Except.ok
        { access_token := create_access_token now token_data,
          refresh_token := refresh_data.refresh_token,
          token_type := "bearer" }

/-- The `logout` endpoint: authenticate the caller (a bearer access token)
and return a message.  Despite the "TODO: Agregar refresh token a blacklist
en Redis" comment, it takes no refresh token and records nothing anywhere:
the process holds no revocation state at all. -/
def logout (now : Nat) (token : Bytes) : Except HTTPException String :=
  match get_current_active_user now token with
  | Except.error e => Except.error e
  | Except.ok _ => Except.ok "Sesión cerrada exitosamente"

/-- Whether a handler result is a success. -/
def resultOk {α : Type} : Except HTTPException α → Bool
  | Except.ok _ => true
  | Except.error _ => false

instance {ε α : Type} [DecidableEq ε] [DecidableEq α] :
    DecidableEq (Except ε α) := fun x y =>
  match x, y with
  | Except.ok a, Except.ok b =>
    if h : a = b then isTrue (by rw [h]) else isFalse (by simp [h])
  | Except.error a, Except.error b =>
    if h : a = b then isTrue (by rw [h]) else isFalse (by simp [h])
  | Except.ok _, Except.error _ => isFalse (by simp)
  | Except.error _, Except.ok _ => isFalse (by simp)

/-- Every record the hardcoded credential store returns carries one of the
two enumerated role strings. -/
theorem users_db_role {email : String} {u : StoredUser}
    (h : users_db email = some u) : u.role = "admin" ∨ u.role = "user" := by
  unfold users_db at h
  split_ifs at h
  · cases Option.some.inj h
    left; rfl
  · cases Option.some.inj h
    right; rfl

/-- C7: `require_role` allows a request exactly when the principal's role
equals the required role or is admin, and otherwise returns the 403
Forbidden error; in particular a standard-role principal fails an
admin-only check and an admin principal always passes. -/
theorem C7_require_role (required_role : UserRole) (u : User) :
    (require_role required_role u = Except.ok u ↔
      (u.role = required_role ∨ u.role = UserRole.admin)) ∧
    (¬(u.role = required_role ∨ u.role = UserRole.admin) →
      require_role required_role u = Except.error forbiddenError) := by
  unfold require_role
  split_ifs with h
  · refine ⟨⟨fun he => absurd he (by simp), fun hor => ?_⟩, fun _ => rfl⟩
    rcases hor with h1 | h1
    · exact absurd h1 h.1
    · exact absurd h1 h.2
  · push_neg at h
    have hor : u.role = required_role ∨ u.role = UserRole.admin := by
      by_cases he : u.role = required_role
      · exact Or.inl he
      · exact Or.inr (h he)
    exact ⟨⟨fun _ => hor, fun _ => rfl⟩, fun hn => absurd hor hn⟩

/-- Witness for C7 at concrete inputs: a standard-role user is refused an
admin-only resource, and an admin passes a user-level check. -/
theorem C7_require_role_witness :
    require_role UserRole.admin
      { id := "2", email := "vendedor@mundonegocio.com",
        full_name := "Vendedor Demo", role := UserRole.user,
        country := "peru", is_active := true } =
      Except.error forbiddenError ∧
    require_role UserRole.user
      { id := "1", email := "admin@mundonegocio.com",
        full_name := "Administrador Sistema", role := UserRole.admin,
        country := "peru", is_active := true } =
      Except.ok
      { id := "1", email := "admin@mundonegocio.com",
        full_name := "Administrador Sistema", role := UserRole.admin,
        country := "peru", is_active := true } :=
  ⟨(C7_require_role UserRole.admin _).2 (by decide),
    (C7_require_role UserRole.user _).1.mpr (by decide)⟩

/-- C8: a login attempt with an unknown identifier and one with a known
identifier but wrong secret return the very same error value, and both
emit the same log event, a `login_failed` record carrying only the
presented email — so the two runs are indistinguishable to any observer
of the result and the log. -/
theorem C8_login_enumeration_safe
    (now1 now2 : Nat) (jti1 jti2 : String) (r1 r2 : LoginRequest)
    (h1 : users_db r1.email = none)
    (u : StoredUser) (h2 : users_db r2.email = some u)
    (h3 : verify_password r2.password u.hashed_password = false) :
    login now1 jti1 r1 = Except.error loginFailedError ∧
    login now2 jti2 r2 = Except.error loginFailedError ∧
    login_log r1 = [("login_failed", r1.email)] ∧
    login_log r2 = [("login_failed", r2.email)] := by
  unfold login login_log
  rw [h1, h2]
  simp [h3]

/-- Witness for C8: unknown `ghost@example.com` versus the stored admin
account with a wrong password. -/
theorem C8_login_enumeration_safe_witness :
    login 0 "j1" ⟨"ghost@example.com", "admin123"⟩ =
      Except.error loginFailedError ∧
    login 0 "j2" ⟨"admin@mundonegocio.com", "wrong"⟩ =
      Except.error loginFailedError ∧
    login_log ⟨"ghost@example.com", "admin123"⟩ =
      [("login_failed", "ghost@example.com")] ∧
    login_log ⟨"admin@mundonegocio.com", "wrong"⟩ =
      [("login_failed", "admin@mundonegocio.com")] :=
  C8_login_enumeration_safe 0 0 "j1" "j2"
    ⟨"ghost@example.com", "admin123"⟩ ⟨"admin@mundonegocio.com", "wrong"⟩
    (by decide)
    { id := "1", email := "admin@mundonegocio.com",
      hashed_password := get_password_hash "admin123",
      full_name := "Administrador Sistema", role := "admin",
      country := "peru", is_active := true }
    (by decide) (by decide)

/-- C4 counterexample: a validly signed token whose expiry lies in the past
is rejected with exactly the same error value as an outright malformed
token — there is no distinct TokenExpired outcome in the code; both paths
raise 401 "Token inválido o expirado". -/
theorem C4_counterexample :
    decode_token 10 (jwtEncode appKey
      { sub := some "a", user_id := none, name := none, role := none,
        country := none, exp := 0, iat := 0, type := "access", jti := none }) =
      Except.error invalidTokenError ∧
    decode_token 10 [99] = Except.error invalidTokenError := by
  decide

/-- C4 amended: any token whose embedded expiry is before the current time
is rejected by `decode_token` itself — even when its signature is valid —
so `authenticate` (`get_current_user`) and `refresh` inherit the check;
but the error is the codec's single generic 401, not a distinct
TokenExpired. -/
theorem C4_expired_rejected_in_codec (now : Nat) (c : Claims)
    (h : c.exp < now) :
    decode_token now (jwtEncode appKey c) = Except.error invalidTokenError ∧
    get_current_user now (jwtEncode appKey c) = Except.error invalidTokenError ∧
    refresh_token now ⟨jwtEncode appKey c⟩ = Except.error invalidTokenError := by
  have hd : decode_token now (jwtEncode appKey c) = Except.error invalidTokenError := by
    unfold decode_token jwtDecode
    simp only [jwtDecodeRaw_encode]
    rw [if_pos h]
  refine ⟨hd, ?_, ?_⟩
  · unfold get_current_user
    rw [hd]
  · unfold refresh_token
    rw [hd]

/-- Witness for C4 amended: a token with expiry 0 presented at time 10. -/
theorem C4_expired_rejected_in_codec_witness :
    decode_token 10 (jwtEncode appKey
      { sub := some "a", user_id := none, name := none, role := none,
        country := none, exp := 0, iat := 0, type := "access", jti := none }) =
      Except.error invalidTokenError ∧
    get_current_user 10 (jwtEncode appKey
      { sub := some "a", user_id := none, name := none, role := none,
        country := none, exp := 0, iat := 0, type := "access", jti := none }) =
      Except.error invalidTokenError ∧
    refresh_token 10 ⟨jwtEncode appKey
      { sub := some "a", user_id := none, name := none, role := none,
        country := none, exp := 0, iat := 0, type := "access", jti := none }⟩ =
      Except.error invalidTokenError :=
  C4_expired_rejected_in_codec 10 _ (by decide)

/-- C5: a validly signed, unexpired refresh token presented to
`authenticate` (`get_current_user`), and such an access token presented to
`refresh`, are both rejected with the dedicated wrong-token-type error,
which differs from the invalid-token error. -/
theorem C5_wrong_token_type (now : Nat) (c : Claims)
    (hexp : ¬ c.exp < now) :
    (c.type = "refresh" →
      get_current_user now (jwtEncode appKey c) = Except.error tokenTypeError) ∧
    (c.type = "access" →
      refresh_token now ⟨jwtEncode appKey c⟩ = Except.error tokenTypeError) ∧
    tokenTypeError ≠ invalidTokenError := by
  have hd : decode_token now (jwtEncode appKey c) = Except.ok c := by
    unfold decode_token jwtDecode
    simp only [jwtDecodeRaw_encode]
    rw [if_neg hexp]
  refine ⟨?_, ?_, by decide⟩
  · intro ht
    unfold get_current_user
    rw [hd]
    simp [ht]
  · intro ht
    unfold refresh_token
    rw [hd]
    simp [ht]

/-- Witness for C5: a refresh token to `authenticate` and an access token
to `refresh`, both signed and unexpired. -/
theorem C5_wrong_token_type_witness :
    get_current_user 5 (jwtEncode appKey
      { sub := some "a", user_id := none, name := none, role := none,
        country := none, exp := 9, iat := 0, type := "refresh", jti := some "j" }) =
      Except.error tokenTypeError ∧
    refresh_token 5 ⟨jwtEncode appKey
      { sub := some "a", user_id := none, name := none, role := none,
        country := none, exp := 9, iat := 0, type := "access", jti := none }⟩ =
      Except.error tokenTypeError :=
  ⟨(C5_wrong_token_type 5 _ (by decide)).1 rfl,
    (C5_wrong_token_type 5 _ (by decide)).2.1 rfl⟩

/-- C6 counterexample: the round-trip law fails as universally stated —
decoding the encoding of a claim set whose expiry has already passed
yields the expiry rejection, not the claim set. -/
theorem C6_counterexample :
    jwtDecode appKey 10 (jwtEncode appKey
      { sub := some "a", user_id := none, name := none, role := none,
        country := none, exp := 0, iat := 0, type := "access", jti := none }) ≠
    Except.ok
      { sub := some "a", user_id := none, name := none, role := none,
        country := none, exp := 0, iat := 0, type := "access", jti := none } := by
  decide

/-- C6 amended: for every signing key and claim set whose expiry has not
passed, decode inverts encode; and altering any single symbol of an
encoded token makes decode fail — with the codec's one generic
invalid-or-expired error (the code does not separate InvalidToken from
TokenExpired). -/
theorem C6_codec_roundtrip_and_tamper (key : Bytes) (now : Nat) (c : Claims)
    (hexp : ¬ c.exp < now) :
    jwtDecode key now (jwtEncode key c) = Except.ok c ∧
    ∀ i b, i < (jwtEncode key c).length → b ≠ (jwtEncode key c).getD i 0 →
      jwtDecode key now ((jwtEncode key c).set i b) =
        Except.error invalidTokenError := by
  constructor
  · unfold jwtDecode
    simp only [jwtDecodeRaw_encode]
    rw [if_neg hexp]
  · intro i b hi hb
    have hb2 : b ≠ (jwtEncode key c)[i] := by
      rw [List.getD_eq_getElem?_getD, List.getElem?_eq_getElem hi] at hb
      exact hb
    unfold jwtDecode
    rw [jwtDecodeRaw_set key c i b hi hb2]

/-- Witness for C6 amended: a concrete key and claim set round-trip, and
changing symbol 1 of the token to 42 is rejected. -/
theorem C6_codec_roundtrip_and_tamper_witness :
    jwtDecode [7] 5 (jwtEncode [7]
      { sub := some "a", user_id := none, name := none, role := none,
        country := none, exp := 9, iat := 0, type := "access", jti := none }) =
      Except.ok
      { sub := some "a", user_id := none, name := none, role := none,
        country := none, exp := 9, iat := 0, type := "access", jti := none } ∧
    jwtDecode [7] 5 ((jwtEncode [7]
      { sub := some "a", user_id := none, name := none, role := none,
        country := none, exp := 9, iat := 0, type := "access", jti := none }).set 1 42) =
      Except.error invalidTokenError :=
  ⟨(C6_codec_roundtrip_and_tamper [7] 5 _ (by decide)).1,
    (C6_codec_roundtrip_and_tamper [7] 5 _ (by decide)).2 1 42
      (by decide) (by decide)⟩

/-- Every record the hardcoded credential store returns is active. -/
theorem users_db_active {email : String} {u : StoredUser}
    (h : users_db email = some u) : u.is_active = true := by
  unfold users_db at h
  split_ifs at h
  · cases Option.some.inj h
    rfl
  · cases Option.some.inj h
    rfl

/-- Evaluation of `login` on credentials matching a stored record: the
access token carries the five identity claims, the refresh token only the
subject. -/
theorem login_ok {now : Nat} {jti : String} {ld : LoginRequest} {u : StoredUser}
    (hu : users_db ld.email = some u)
    (hv : verify_password ld.password u.hashed_password = true) :
    login now jti ld = Except.ok
      { access_token := create_access_token now
          { sub := some u.email, user_id := some u.id, name := some u.full_name,
            role := some u.role, country := some u.country },
        refresh_token := create_refresh_token now jti { sub := some u.email },
        token_type := "bearer" } := by
  have ha : u.is_active = true := users_db_active hu
  unfold login
  rw [hu]
  simp [hv, ha]

/-- C9 counterexample: the refresh token minted at login time `now = 0`
carries expiry `30 * 86400` (the hardcoded `timedelta(days=30)`), which is
not `now + settings.refresh_token_expire_days * 86400 = 604800`, the
configured lifetime (default 7 days) the claim requires. -/
theorem C9_counterexample :
    (jwtDecodeRaw appKey (create_refresh_token 0 "jti0"
      { sub := some "admin@mundonegocio.com" })).map Claims.exp =
      some (30 * 86400) ∧
    settings.refresh_token_expire_days * 86400 = 604800 ∧
    (30 * 86400 : Nat) ≠ 604800 := by
  decide

/-- C9 amended: the refresh token expires `now + 30 days` — a hardcoded
constant that ignores the configured `refresh_token_expire_days`
(default 7) — and carries the supplied fresh `jti`; the access token (as
`login` mints it, with no explicit delta) expires
`now + access_token_expire_minutes * 60`, the configured default 30
minutes. -/
theorem C9_token_lifetimes (now : Nat) (jti : String) (d : TokenData) :
    (jwtDecodeRaw appKey (create_refresh_token now jti d)).map Claims.exp =
      some (now + 30 * 86400) ∧
    (jwtDecodeRaw appKey (create_refresh_token now jti d)).map Claims.jti =
      some (some jti) ∧
    (jwtDecodeRaw appKey (create_access_token now d)).map Claims.exp =
      some (now + settings.access_token_expire_minutes * 60) ∧
    settings.access_token_expire_minutes = 30 ∧
    settings.refresh_token_expire_days = 7 := by
  refine ⟨?_, ?_, ?_, by decide, by decide⟩
  · unfold create_refresh_token
    simp [jwtDecodeRaw_encode]
  · unfold create_refresh_token
    simp [jwtDecodeRaw_encode]
  · unfold create_access_token
    simp [jwtDecodeRaw_encode]

/-- C10: a successful refresh issues an access token whose claim set holds
only the subject copied from the refresh token plus the bookkeeping
claims (`exp`, `iat`, `type = "access"`): user id, name, role, country and
jti are all absent; whereas the access token a login issues carries all
four identity claims.  The refresh-minted token is strictly poorer in
identity information. -/
theorem C10_refresh_access_claims (now : Nat) (rd : RefreshTokenRequest)
    (res : TokenResponse) (h : refresh_token now rd = Except.ok res) :
    (∃ p, decode_token now rd.refresh_token = Except.ok p ∧
      jwtDecodeRaw appKey res.access_token = some
        { sub := p.sub, user_id := none, name := none, role := none,
          country := none,
          exp := now + settings.access_token_expire_minutes * 60,
          iat := now, type := "access", jti := none }) ∧
    (∀ now2 jti ld u, users_db ld.email = some u →
      verify_password ld.password u.hashed_password = true →
      ∃ res2, login now2 jti ld = Except.ok res2 ∧
        (jwtDecodeRaw appKey res2.access_token).map
          (fun p2 => (p2.user_id, p2.name, p2.role, p2.country)) =
        some (some u.id, some u.full_name, some u.role, some u.country)) := by
  constructor
  · unfold refresh_token at h
    match hd : decode_token now rd.refresh_token with
    | Except.error e =>
      rw [hd] at h
      exact absurd h (by simp)
    | Except.ok payload =>
      rw [hd] at h
      simp only at h
      by_cases ht : payload.type = "refresh"
      · rw [if_neg (not_not_intro ht)] at h
        injection h with hres
        refine ⟨payload, rfl, ?_⟩
        rw [← hres]
        show jwtDecodeRaw appKey (create_access_token now { sub := payload.sub }) = _
        unfold create_access_token
        simp only [jwtDecodeRaw_encode]
      · rw [if_pos ht] at h
        exact absurd h (by simp)
  · intro now2 jti ld u hu hv
    refine ⟨_, login_ok hu hv, ?_⟩
    show (jwtDecodeRaw appKey (create_access_token now2
      { sub := some u.email, user_id := some u.id, name := some u.full_name,
        role := some u.role, country := some u.country })).map _ = _
    unfold create_access_token
    simp only [jwtDecodeRaw_encode, Option.map_some']

/-- Witness for C10: a concrete refresh of a token for subject `"a"`. -/
theorem C10_refresh_access_claims_witness :
    (∃ p, decode_token 5 (create_refresh_token 0 "j" { sub := some "a" }) =
        Except.ok p ∧
      jwtDecodeRaw appKey
        (create_access_token 5 { sub := some "a" }) = some
        { sub := p.sub, user_id := none, name := none, role := none,
          country := none,
          exp := 5 + settings.access_token_expire_minutes * 60,
          iat := 5, type := "access", jti := none }) ∧
    (∀ now2 jti ld u, users_db ld.email = some u →
      verify_password ld.password u.hashed_password = true →
      ∃ res2, login now2 jti ld = Except.ok res2 ∧
        (jwtDecodeRaw appKey res2.access_token).map
          (fun p2 => (p2.user_id, p2.name, p2.role, p2.country)) =
        some (some u.id, some u.full_name, some u.role, some u.country)) :=
  C10_refresh_access_claims 5 ⟨create_refresh_token 0 "j" { sub := some "a" }⟩
    { access_token := create_access_token 5 { sub := some "a" },
      refresh_token := create_refresh_token 0 "j" { sub := some "a" },
      token_type := "bearer" }
    (by decide)

/-- C1: logging in with credentials matching a stored record (all stored
records are active) succeeds, and authenticating the returned access token
before its expiry returns a user whose public fields — identifier (email),
display name, role and region (country) — equal the stored record's. -/
theorem C1_login_then_authenticate
    (now now2 : Nat) (jti : String) (ld : LoginRequest) (u : StoredUser)
    (hu : users_db ld.email = some u)
    (hv : verify_password ld.password u.hashed_password = true)
    (hn : ¬ (now + settings.access_token_expire_minutes * 60) < now2) :
    ∃ res usr, login now jti ld = Except.ok res ∧
      get_current_user now2 res.access_token = Except.ok usr ∧
      usr.email = u.email ∧ usr.full_name = u.full_name ∧
      UserRole.fromString u.role = some usr.role ∧
      usr.country = u.country := by
  have hd : decode_token now2 (create_access_token now
      { sub := some u.email, user_id := some u.id, name := some u.full_name,
        role := some u.role, country := some u.country }) =
      Except.ok
      { sub := some u.email, user_id := some u.id, name := some u.full_name,
        role := some u.role, country := some u.country,
        exp := now + settings.access_token_expire_minutes * 60, iat := now,
        type := "access", jti := none } := by
    unfold create_access_token decode_token jwtDecode
    simp only [jwtDecodeRaw_encode]
    rw [if_neg hn]
  rcases users_db_role hu with hr | hr
  · refine ⟨_, { id := u.id, email := u.email, full_name := u.full_name,
                 role := UserRole.admin, country := u.country,
                 is_active := true },
      login_ok hu hv, ?_, rfl, rfl, by rw [hr]; rfl, rfl⟩
    show get_current_user now2 (create_access_token now
      { sub := some u.email, user_id := some u.id, name := some u.full_name,
        role := some u.role, country := some u.country }) = _
    unfold get_current_user
    rw [hd]
    simp [hr, UserRole.fromString]
  · refine ⟨_, { id := u.id, email := u.email, full_name := u.full_name,
                 role := UserRole.user, country := u.country,
                 is_active := true },
      login_ok hu hv, ?_, rfl, rfl, by rw [hr]; rfl, rfl⟩
    show get_current_user now2 (create_access_token now
      { sub := some u.email, user_id := some u.id, name := some u.full_name,
        role := some u.role, country := some u.country }) = _
    unfold get_current_user
    rw [hd]
    simp [hr, UserRole.fromString]

/-- Witness for C1: the stored admin account, authenticated right away. -/
theorem C1_login_then_authenticate_witness :
    ∃ res usr, login 0 "j" ⟨"admin@mundonegocio.com", "admin123"⟩ =
        Except.ok res ∧
      get_current_user 0 res.access_token = Except.ok usr ∧
      usr.email = "admin@mundonegocio.com" ∧
      usr.full_name = "Administrador Sistema" ∧
      UserRole.fromString "admin" = some usr.role ∧
      usr.country = "peru" :=
  C1_login_then_authenticate 0 0 "j" ⟨"admin@mundonegocio.com", "admin123"⟩
    { id := "1", email := "admin@mundonegocio.com",
      hashed_password := get_password_hash "admin123",
      full_name := "Administrador Sistema", role := "admin",
      country := "peru", is_active := true }
    (by decide) (by decide) (by decide)

/-- C2 (code bug): the process keeps no revocation state at all.  Demo run:
log in, call logout (which only authenticates the bearer and returns a
message — it does not even receive the refresh token, let alone record its
jti anywhere), then refresh with the original refresh token still
succeeds; no path of `refresh_token` can produce a TokenRevoked error. -/
theorem C2_refresh_after_logout_succeeds :
    ∃ res : TokenResponse,
      login 0 "jti0" ⟨"admin@mundonegocio.com", "admin123"⟩ = Except.ok res ∧
      logout 1 res.access_token = Except.ok "Sesión cerrada exitosamente" ∧
      resultOk (refresh_token 2 ⟨res.refresh_token⟩) = true := by
  refine ⟨{ access_token :=
              create_access_token 0
                { sub := some "admin@mundonegocio.com", user_id := some "1",
                  name := some "Administrador Sistema", role := some "admin",
                  country := some "peru" },
            refresh_token :=
              create_refresh_token 0 "jti0"
                { sub := some "admin@mundonegocio.com" },
            token_type := "bearer" }, ?_, ?_, ?_⟩
  · decide
  · decide
  · decide

/-- C3 (code bug): `refresh_token` never consults the credential store — a
well-formed, unexpired refresh token for an identifier with no stored
record still yields a fresh access token instead of an AccountInactive
error. -/
theorem C3_refresh_ignores_store :
    users_db "ghost@example.com" = none ∧
    resultOk (refresh_token 5
      ⟨create_refresh_token 0 "jti1" { sub := some "ghost@example.com" }⟩) =
      true := by
  decide

end MN
